import Mathlib

/-!
Verification of the PersonalNotes SKSE plugin (src/plugin.cpp) against its
natural-language specification.

The note store (`NoteManager`), its quest-note operations, and the SKSE
co-save serialization path (`Note::Save/Load`, `NoteManager::Save/Load/Revert`,
the save/load/revert callbacks registered in `InitializePlugin`) are embedded
shallowly below.  `std::string` is modelled as a list of bytes,
`std::unordered_map<RE::FormID, Note>` as an association list with unique
keys, and the raw byte channel of `SKSE::SerializationInterface` as a list of
bytes consumed by an explicit cursor.  The Night-Eye reconciliation engine
described by the specification has no code under src/ and is modelled from
the specification text where claims require it.
-/

namespace PersonalNotes

/-- Little-endian encoding of a machine integer into `w` raw bytes, as
`WriteRecordData(&x, w)` emits them; truncates modulo `2 ^ (8 * w)`. -/
def toBytesLE : Nat → Nat → List Nat
  | 0, _ => []
  | w + 1, v => v % 256 :: toBytesLE w (v / 256)

/-- Value of a little-endian raw byte buffer, as `ReadRecordData(&x, w)`
reassembles it. -/
def fromBytesLE : List Nat → Nat
  | [] => 0
  | b :: bs => b % 256 + 256 * fromBytesLE bs

/-- `ReadRecordData(buf, n)` on the remaining record data: succeeds exactly
when `n` bytes remain, consuming them; a failed read consumes nothing. -/
def readBytes (n : Nat) (s : List Nat) : Option (List Nat × List Nat) :=
  if n ≤ s.length then some (s.take n, s.drop n) else none

/-- `struct Note` of plugin.cpp: text bytes, `time_t` timestamp (64-bit
pattern), `RE::FormID` quest id (32-bit). -/
structure Note where
  text : List Nat
  timestamp : Nat
  questID : Nat
deriving DecidableEq, Repr

/-- `Note::Save`: writes questID (4 bytes), textLen (4 bytes, the string size
cast to uint32), the text bytes when textLen > 0, then the timestamp
(8 bytes). -/
def Note.Save (n : Note) : List Nat :=
  toBytesLE 4 n.questID ++ toBytesLE 4 (n.text.length % 2 ^ 32) ++
    n.text.take (n.text.length % 2 ^ 32) ++ toBytesLE 8 n.timestamp

/-- `Note::Load`: reads questID, textLen, textLen text bytes (when
textLen > 0), then the timestamp; on any failed read it returns failure with
the bytes of the already-successful reads consumed. -/
def Note.Load (s : List Nat) : Option Note × List Nat :=
  match readBytes 4 s with
  | none => (none, s)
  | some (qb, s1) =>
    match readBytes 4 s1 with
    | none => (none, s1)
    | some (lb, s2) =>
      let textLen := fromBytesLE lb
      match (if 0 < textLen then readBytes textLen s2 else some ([], s2)) with
      | none => (none, s2)
      | some (tb, s3) =>
        match readBytes 8 s3 with
        | none => (none, s3)
        | some (tsb, s4) =>
          (some { text := tb, timestamp := fromBytesLE tsb, questID := fromBytesLE qb }, s4)

/-- The note store `notesByQuest_ : std::unordered_map<RE::FormID, Note>`,
as an association list with unique keys. -/
abbrev Store := List (Nat × Note)

/-- Membership test of a key in the store (`find != end`). -/
def hasKey (store : Store) (k : Nat) : Bool :=
  store.any (fun p => p.1 == k)

/-- `notesByQuest_[k] = v`: replace in place when the key is present,
otherwise add the new entry. -/
def insertNote (store : Store) (k : Nat) (v : Note) : Store :=
  if hasKey store k then store.map (fun p => if p.1 == k then (k, v) else p)
  else store ++ [(k, v)]

/-- `notesByQuest_.erase(k)`. -/
def eraseNote (store : Store) (k : Nat) : Store :=
  store.filter (fun p => !(p.1 == k))

/-- `notesByQuest_.find(k)`, returning the mapped note when present. -/
def lookupNote (store : Store) (k : Nat) : Option Note :=
  (store.find? (fun p => p.1 == k)).map Prod.snd

namespace NoteManager

/-- `NoteManager::GetNoteForQuest`: the stored note's text, or the empty
string when no note is present. -/
def GetNoteForQuest (store : Store) (k : Nat) : List Nat :=
  match lookupNote store k with
  | some n => n.text
  | none => []

/-- `NoteManager::SaveNoteForQuest`: empty text deletes the note, otherwise
the note `Note(text, questID)` (timestamped with the current time `now`) is
stored under the quest id. -/
def SaveNoteForQuest (now : Nat) (store : Store) (k : Nat) (text : List Nat) : Store :=
  if text.isEmpty then eraseNote store k
  else insertNote store k { text := text, timestamp := now, questID := k }

/-- `NoteManager::HasNoteForQuest`. -/
def HasNoteForQuest (store : Store) (k : Nat) : Bool :=
  hasKey store k

/-- `NoteManager::DeleteNoteForQuest`. -/
def DeleteNoteForQuest (store : Store) (k : Nat) : Store :=
  eraseNote store k

/-- `NoteManager::GetNoteCount`. -/
def GetNoteCount (store : Store) : Nat :=
  store.length

/-- `NoteManager::kDataKey = 'PNOT'` (multi-character literal
0x504E4F54). -/
def kDataKey : Nat := 0x504E4F54

/-- `NoteManager::kSerializationVersion = 2`. -/
def kSerializationVersion : Nat := 2

/-- `NoteManager::Save`: writes the note count (size cast to uint32) followed
by each stored note. -/
def Save (store : Store) : List Nat :=
  toBytesLE 4 (store.length % 2 ^ 32) ++ (store.map (fun p => p.2.Save)).flatten

/-- `NoteManager::Revert`: clears all notes. -/
def Revert (_store : Store) : Store := []

end NoteManager

/-- One record of the SKSE co-save channel as `GetNextRecordInfo` yields it:
type tag, version, and the record's raw data bytes. -/
structure SaveRecord where
  type : Nat
  version : Nat
  data : List Nat
deriving DecidableEq, Repr

namespace NoteManager

/-- The note-reading loop of `NoteManager::Load`: reads `count` notes,
keying each successfully parsed note by its own questID; a note that fails
to parse is logged and skipped, and the loop continues. -/
def loadNotes : Nat → List Nat → Store → Store
  | 0, _, acc => acc
  | i + 1, s, acc =>
    match Note.Load s with
    | (some n, rest) => loadNotes i rest (insertNote acc n.questID n)
    | (none, rest) => loadNotes i rest acc

/-- The record loop of `NoteManager::Load`: version-1 records and records of
any other unknown version are skipped with a warning and the loop continues;
at the current version, a failed read of the note count aborts the whole
load (the surrounding function returns), keeping whatever is in the store so
far. -/
def loadLoop : List SaveRecord → Store → Store
  | [], st => st
  | r :: rs, st =>
    if r.type = kDataKey then
      if r.version = 1 then loadLoop rs st
      else if r.version ≠ kSerializationVersion then loadLoop rs st
      else
        match readBytes 4 r.data with
        | none => st
        | some (cb, s) => loadLoop rs (loadNotes (fromBytesLE cb) s st)
    else loadLoop rs st

/-- `NoteManager::Load` (the load callback): clears the store first, then
processes every record of the co-save payload. -/
def Load (records : List SaveRecord) (_store : Store) : Store :=
  loadLoop records []

/-- The save callback registered in `InitializePlugin`: opens one record
keyed `kDataKey` at `kSerializationVersion` and fills it with
`NoteManager::Save`'s bytes. -/
def saveCallback (store : Store) : SaveRecord :=
  { type := kDataKey, version := kSerializationVersion, data := Save store }

end NoteManager

namespace PapyrusBridge

/-- `PapyrusBridge::SaveQuestNote`: the Papyrus int32 quest id is cast to the
unsigned 32-bit `RE::FormID`; id 0 is rejected with a warning, otherwise the
note is saved (or deleted, for empty text) through
`NoteManager::SaveNoteForQuest`. -/
def SaveQuestNote (now : Nat) (questIDSigned : Int) (noteText : List Nat)
    (store : Store) : Store :=
  let questID : Nat := (questIDSigned % (2 ^ 32 : Int)).toNat
  if questID = 0 then store
  else NoteManager.SaveNoteForQuest now store questID noteText

end PapyrusBridge

namespace NightEye

/-- Modelled from the spec: the configuration sets of section 3 ("three sets
of opaque 32-bit identifiers (spell ids, apply-effect ids, dispel-effect
ids)"); the reconciliation engine itself has no code under src/, so it is
reconstructed from the specification text. -/
structure Config where
  spells : List Nat
  applyEffects : List Nat
  dispelEffects : List Nat

/-- Modelled from the spec: the `lastEvent` enum of `NightEyeState`
(`None, Equipped, Unequipped, EffectApplied, EffectDispelled`); the engine
code is not under src/. -/
inductive LastEventKind
  | noEvent
  | equipped
  | unequipped
  | effectApplied
  | effectDispelled
deriving DecidableEq

/-- Modelled from the spec: the reconciliation-engine state of section 4.1
(`isActive`, `lastEvent`, `pendingToggleOn`, `pendingRemoval`,
`pendingRenderValue`, `hasPendingRenderUpdate`); the engine code is not
under src/. -/
structure EngineState where
  isActive : Bool
  lastEvent : LastEventKind
  pendingToggleOn : Bool
  pendingRemoval : Bool
  pendingRenderValue : Bool
  hasPendingRenderUpdate : Bool
deriving DecidableEq

/-- Modelled from the spec: the engine's inputs (equip/unequip, spell-cast,
effect apply, effect remove, periodic poll, post-load desync check); `poll`
carries whether a configured apply effect is present in the player's live
active-effect list, `postLoadCheck` the live activity observed after load. -/
inductive EngineInput
  | equip
  | unequip
  | spellCast (spell : Nat) (spellEffects : List Nat)
  | effectApply (effect : Nat)
  | effectRemove (effect : Nat)
  | poll (applyEffectPresent : Bool)
  | postLoadCheck (liveActive : Bool)
deriving DecidableEq

/-- Modelled from the spec: a cast is the toggle trigger when the spell is
configured and its effect list intersects the configured apply set. -/
def castMatches (cfg : Config) (spell : Nat) (spellEffects : List Nat) : Bool :=
  cfg.spells.contains spell && spellEffects.any (fun e => cfg.applyEffects.contains e)

/-- Modelled from the spec: transitions 1-6 of section 4.1 of the
reconciliation engine, whose code is not under src/. -/
def step (cfg : Config) (s : EngineState) : EngineInput → EngineState
  | .equip => { s with lastEvent := .equipped }
  | .unequip => { s with lastEvent := .unequipped }
  | .spellCast spell spellEffects =>
    if castMatches cfg spell spellEffects then
      let active := !s.isActive
      { s with
        pendingRemoval := false
        isActive := active
        lastEvent := .effectApplied
        pendingRenderValue := active
        hasPendingRenderUpdate := true
        pendingToggleOn := if active then true else s.pendingToggleOn }
    else s
  | .effectApply _ => s
  | .effectRemove effect =>
    if cfg.applyEffects.contains effect then
      if s.pendingToggleOn then { s with pendingToggleOn := false }
      else { s with pendingRemoval := true }
    else s
  | .poll applyEffectPresent =>
    if s.pendingRemoval && s.isActive && !applyEffectPresent then
      { s with
        isActive := false
        lastEvent := .effectDispelled
        pendingRemoval := false
        pendingRenderValue := false
        hasPendingRenderUpdate := true }
    else s
  | .postLoadCheck liveActive =>
    if s.isActive != liveActive then
      { s with
        isActive := liveActive
        pendingRenderValue := liveActive
        hasPendingRenderUpdate := true }
    else s

/-- Modelled from the spec: the engine state constructed at plugin load -
inactive, no last event, no pending windows, no pending render push. -/
def initState : EngineState :=
  { isActive := false, lastEvent := .noEvent, pendingToggleOn := false,
    pendingRemoval := false, pendingRenderValue := false, hasPendingRenderUpdate := false }

/-- A run of the engine: fold the transitions over an input sequence from the
initial state. -/
def run (cfg : Config) (inputs : List EngineInput) : EngineState :=
  inputs.foldl (step cfg) initState

end NightEye

/-- Well-formedness of a note store as the C++ maintains it: fewer than
2^32 notes (map keys are 32-bit FormIDs), no duplicate keys, each note keyed
by its own 32-bit questID, timestamps fitting the 64-bit `time_t` that is
serialized, and text shorter than the uint32 length field. -/
def WFStore (store : Store) : Prop :=
  store.length < 2 ^ 32 ∧ (store.map Prod.fst).Nodup ∧
    ∀ p ∈ store, p.2.questID = p.1 ∧ p.1 < 2 ^ 32 ∧
      p.2.timestamp < 2 ^ 64 ∧ p.2.text.length < 2 ^ 32

/-- A concrete note used by the closed witnesses and counterexamples. -/
def exNote : Note := { text := [104, 105], timestamp := 42, questID := 5 }

/-- A concrete one-note store used by the closed witnesses and
counterexamples. -/
def exStore : Store := [(5, exNote)]

/-! ## Helper lemmas -/

theorem toBytesLE_length (w v : Nat) : (toBytesLE w v).length = w := by
  induction w generalizing v with
  | zero => rfl
  | succ w ih => simp [toBytesLE, ih]

theorem fromBytesLE_toBytesLE (w v : Nat) :
    fromBytesLE (toBytesLE w v) = v % 2 ^ (8 * w) := by
  induction w generalizing v with
  | zero => simp [toBytesLE, fromBytesLE, Nat.mod_one]
  | succ w ih =>
    have hexp : (2 : Nat) ^ (8 * (w + 1)) = 256 * 2 ^ (8 * w) := by
      rw [Nat.mul_succ, pow_add]; ring
    rw [toBytesLE, fromBytesLE, ih, hexp, Nat.mod_mul, Nat.mod_mod]

theorem readBytes_append (a b : List Nat) :
    readBytes a.length (a ++ b) = some (a, b) := by
  simp [readBytes, List.take_left, List.drop_left]

theorem readBytes_of_length (n : Nat) (a b : List Nat) (h : a.length = n) :
    readBytes n (a ++ b) = some (a, b) := by
  subst h; exact readBytes_append a b

theorem fromBytesLE_toBytesLE_of_lt (w v : Nat) (h : v < 2 ^ (8 * w)) :
    fromBytesLE (toBytesLE w v) = v := by
  rw [fromBytesLE_toBytesLE]; exact Nat.mod_eq_of_lt h

theorem hasKey_eraseNote (st : Store) (k : Nat) :
    hasKey (eraseNote st k) k = false := by
  simp [hasKey, eraseNote]

theorem hasKey_append (a b : Store) (k : Nat) :
    hasKey (a ++ b) k = (hasKey a k || hasKey b k) := by
  simp [hasKey]

theorem hasKey_eq_isSome (st : Store) (k : Nat) :
    hasKey st k = (lookupNote st k).isSome := by
  induction st with
  | nil => rfl
  | cons p ps ih =>
    by_cases h : p.1 == k
    · simp [hasKey, lookupNote, List.find?_cons, h]
    · simp only [hasKey, lookupNote, List.any_cons, List.find?_cons, h, Bool.false_or]
      simpa [hasKey, lookupNote] using ih

/-! ## Claim theorems -/

/-- Claim C5 (confirmed): on revert (new game, or load of a save lacking this
plugin's data) the persisted state is reset to its defaults: for every prior
state, after the revert callback runs the note map is empty and
`GetNoteCount` returns 0. -/
theorem c5_revert_resets_to_default (store : Store) :
    NoteManager.Revert store = [] ∧
    NoteManager.GetNoteCount (NoteManager.Revert store) = 0 :=
  ⟨rfl, rfl⟩

/-- Claim C8 (confirmed): calling `SaveNoteForQuest` with empty text removes
any stored note for that quest - its effect equals `DeleteNoteForQuest` -
and afterwards `HasNoteForQuest` returns false for that id, so an empty note
is never stored. -/
theorem c8_empty_text_deletes (now : Nat) (store : Store) (k : Nat) :
    NoteManager.SaveNoteForQuest now store k [] = NoteManager.DeleteNoteForQuest store k ∧
    NoteManager.HasNoteForQuest (NoteManager.SaveNoteForQuest now store k []) k = false := by
  refine ⟨rfl, ?_⟩
  simp [NoteManager.SaveNoteForQuest, NoteManager.HasNoteForQuest, hasKey_eraseNote]

/-- Claim C10 (confirmed): `GetNoteForQuest` returns the stored note's text
when a note is present and the empty string when none is present (the store
is not modified - the embedding is a pure function of the store), and a
non-empty result implies `HasNoteForQuest` is true. -/
theorem c10_get_note_for_quest (store : Store) (k : Nat) :
    (∀ n, lookupNote store k = some n → NoteManager.GetNoteForQuest store k = n.text) ∧
    (lookupNote store k = none → NoteManager.GetNoteForQuest store k = []) ∧
    (NoteManager.GetNoteForQuest store k ≠ [] →
      NoteManager.HasNoteForQuest store k = true) := by
  refine ⟨fun n hn => ?_, fun hn => ?_, fun hne => ?_⟩
  · simp [NoteManager.GetNoteForQuest, hn]
  · simp [NoteManager.GetNoteForQuest, hn]
  · rcases h : lookupNote store k with _ | n
    · simp [NoteManager.GetNoteForQuest, h] at hne
    · simp [NoteManager.HasNoteForQuest, hasKey_eq_isSome, h]

/-- Closed witness for claim C10 at a concrete store. -/
theorem c10_witness :
    NoteManager.GetNoteForQuest exStore 5 = exNote.text ∧
    NoteManager.GetNoteForQuest exStore 7 = [] ∧
    NoteManager.HasNoteForQuest exStore 5 = true :=
  ⟨(c10_get_note_for_quest exStore 5).1 exNote (by decide),
   (c10_get_note_for_quest exStore 7).2.1 (by decide),
   (c10_get_note_for_quest exStore 5).2.2 (by decide)⟩

/-- Claim C9 (confirmed): `SaveQuestNote` interprets its signed 32-bit quest
id as the unsigned FormID `questIDSigned mod 2^32` - a negative int32 maps
to an id at or above `0x80000000` - and when that id is 0 it returns with
the store unmodified; otherwise it stores through `SaveNoteForQuest`. -/
theorem c9_signed_id_conversion (now : Nat) (x : Int) (t : List Nat) (store : Store)
    (h1 : -(2 ^ 31) ≤ x) (h2 : x < 2 ^ 31) :
    (x < 0 → 2 ^ 31 ≤ (x % (2 ^ 32 : Int)).toNat) ∧
    ((x % (2 ^ 32 : Int)).toNat = 0 → PapyrusBridge.SaveQuestNote now x t store = store) ∧
    ((x % (2 ^ 32 : Int)).toNat ≠ 0 →
      PapyrusBridge.SaveQuestNote now x t store =
        NoteManager.SaveNoteForQuest now store ((x % (2 ^ 32 : Int)).toNat) t) := by
  refine ⟨fun hx => by omega, fun h0 => ?_, fun hne => ?_⟩
  · show (if (x % (2 ^ 32 : Int)).toNat = 0 then store
      else NoteManager.SaveNoteForQuest now store ((x % (2 ^ 32 : Int)).toNat) t) = store
    rw [if_pos h0]
  · show (if (x % (2 ^ 32 : Int)).toNat = 0 then store
      else NoteManager.SaveNoteForQuest now store ((x % (2 ^ 32 : Int)).toNat) t) =
      NoteManager.SaveNoteForQuest now store ((x % (2 ^ 32 : Int)).toNat) t
    rw [if_neg hne]

/-- Closed witness for claim C9: `-1` maps to `0xFFFFFFFF` (at or above
`0x80000000`), and quest id 0 leaves the store unmodified. -/
theorem c9_witness :
    2 ^ 31 ≤ (((-1 : Int)) % (2 ^ 32 : Int)).toNat ∧
    PapyrusBridge.SaveQuestNote 0 0 [] exStore = exStore :=
  ⟨(c9_signed_id_conversion 0 (-1) [] [] (by decide) (by decide)).1 (by decide),
   (c9_signed_id_conversion 0 0 [] exStore (by decide) (by decide)).2.1 (by decide)⟩

/-- Claim C3 (confirmed): a persisted record whose version is not the current
serialization version (version 1 included) is skipped - the store at that
point is untouched and no part of its payload is read - and the load
callback continues with the subsequent records; an unknown version is never
fatal. -/
theorem c3_unknown_version_skipped (r : SaveRecord) (rs : List SaveRecord)
    (st pre : Store) (hv : r.version ≠ NoteManager.kSerializationVersion) :
    NoteManager.loadLoop (r :: rs) st = NoteManager.loadLoop rs st ∧
    NoteManager.Load (r :: rs) pre = NoteManager.Load rs pre := by
  have hloop : ∀ s : Store, NoteManager.loadLoop (r :: rs) s = NoteManager.loadLoop rs s := by
    intro s
    rw [NoteManager.loadLoop]
    by_cases ht : r.type = NoteManager.kDataKey
    · rw [if_pos ht]
      by_cases h1 : r.version = 1
      · rw [if_pos h1]
      · rw [if_neg h1, if_pos hv]
    · rw [if_neg ht]
  exact ⟨hloop st, hloop []⟩

/-- Closed witness for claim C3: a version-7 record is skipped and loading
continues identically. -/
theorem c3_witness :
    NoteManager.loadLoop [⟨NoteManager.kDataKey, 7, [0]⟩] exStore =
      NoteManager.loadLoop [] exStore :=
  (c3_unknown_version_skipped ⟨NoteManager.kDataKey, 7, [0]⟩ [] exStore [] (by decide)).1

/-- Parsing the bytes a note serializes to yields the note back (with the
remaining stream untouched beyond them), provided its fields fit the machine
types the C++ writes: a 32-bit questID, a 64-bit timestamp, a text shorter
than the uint32 length field. -/
theorem Note_Load_Save (n : Note) (rest : List Nat)
    (hq : n.questID < 2 ^ 32) (htime : n.timestamp < 2 ^ 64)
    (hlen : n.text.length < 2 ^ 32) :
    Note.Load (n.Save ++ rest) = (some n, rest) := by
  have hmod : n.text.length % 2 ^ 32 = n.text.length := Nat.mod_eq_of_lt hlen
  have hq' : fromBytesLE (toBytesLE 4 n.questID) = n.questID :=
    fromBytesLE_toBytesLE_of_lt 4 _ (by omega)
  have htime' : fromBytesLE (toBytesLE 8 n.timestamp) = n.timestamp :=
    fromBytesLE_toBytesLE_of_lt 8 _ (by omega)
  have hlen' : fromBytesLE (toBytesLE 4 n.text.length) = n.text.length :=
    fromBytesLE_toBytesLE_of_lt 4 _ (by omega)
  rw [Note.Save, hmod, List.take_length]
  simp only [List.append_assoc]
  unfold Note.Load
  rw [readBytes_of_length 4 (toBytesLE 4 n.questID) _ (toBytesLE_length 4 n.questID)]
  simp only
  rw [readBytes_of_length 4 (toBytesLE 4 n.text.length) _ (toBytesLE_length 4 _)]
  simp only [hlen']
  by_cases h0 : 0 < n.text.length
  · rw [if_pos h0, readBytes_of_length n.text.length n.text _ rfl]
    simp only
    rw [readBytes_of_length 8 (toBytesLE 8 n.timestamp) _ (toBytesLE_length 8 _)]
    simp only [hq', htime']
  · rw [if_neg h0]
    have hnil : n.text = [] := by
      cases hn : n.text with
      | nil => rfl
      | cons a l => rw [hn] at h0; simp at h0
    rw [hnil]
    simp only [List.nil_append]
    rw [readBytes_of_length 8 (toBytesLE 8 n.timestamp) _ (toBytesLE_length 8 _)]
    simp only [hq', htime']
    have heta : (⟨[], n.timestamp, n.questID⟩ : Note) = n := by
      cases n with
      | mk t ts q => simp_all
    rw [heta]

/-- Reading back `count` notes from the concatenation of their serialized
bytes inserts exactly those notes, in order. -/
theorem loadNotes_saved (l : Store) (acc : Store)
    (hWF : ∀ p ∈ l, p.2.questID < 2 ^ 32 ∧ p.2.timestamp < 2 ^ 64 ∧
      p.2.text.length < 2 ^ 32) :
    NoteManager.loadNotes l.length ((l.map (fun p => p.2.Save)).flatten) acc =
      l.foldl (fun a p => insertNote a p.2.questID p.2) acc := by
  induction l generalizing acc with
  | nil => rfl
  | cons p ps ih =>
    have hp := hWF p (List.mem_cons_self p ps)
    simp only [List.map_cons, List.flatten_cons, List.length_cons, List.foldl_cons]
    rw [NoteManager.loadNotes, Note_Load_Save p.2 _ hp.1 hp.2.1 hp.2.2]
    exact ih _ (fun q hq => hWF q (List.mem_cons_of_mem p hq))

/-- Folding fresh-keyed inserts over a store with distinct keys appends the
entries in order. -/
theorem foldl_insert_fresh (l : Store) (acc : Store)
    (hkeys : ∀ p ∈ l, p.2.questID = p.1)
    (hnd : (l.map Prod.fst).Nodup)
    (hdisj : ∀ p ∈ l, hasKey acc p.1 = false) :
    l.foldl (fun a p => insertNote a p.2.questID p.2) acc = acc ++ l := by
  induction l generalizing acc with
  | nil => simp
  | cons p ps ih =>
    have hkey := hkeys p (List.mem_cons_self p ps)
    have hfresh := hdisj p (List.mem_cons_self p ps)
    simp only [List.foldl_cons]
    rw [hkey, insertNote, if_neg (by rw [hfresh]; exact Bool.false_ne_true)]
    have hnd2 : p.1 ∉ ps.map Prod.fst ∧ (ps.map Prod.fst).Nodup := by
      rw [List.map_cons, List.nodup_cons] at hnd; exact hnd
    have hnd' : (ps.map Prod.fst).Nodup := hnd2.2
    have hhead : ∀ q ∈ ps, ¬ p.1 = q.1 := by
      intro q hqmem heq
      exact hnd2.1 (heq ▸ List.mem_map_of_mem Prod.fst hqmem)
    have hdisj' : ∀ q ∈ ps, hasKey (acc ++ [(p.1, p.2)]) q.1 = false := by
      intro q hqmem
      rw [hasKey_append, hdisj q (List.mem_cons_of_mem p hqmem)]
      simp [hasKey, hhead q hqmem]
    rw [ih (acc ++ [(p.1, p.2)]) (fun q hq => hkeys q (List.mem_cons_of_mem p hq))
      hnd' hdisj']
    simp

/-- Claim C2 (confirmed): saving at the current serialization version and
loading the produced payload reproduces the identical store - every note's
quest id, text, and timestamp are restored exactly, and no notes are added
or lost - for every well-formed store (32-bit quest ids, 64-bit timestamps,
text and note count within their uint32 fields, each note keyed by its own
quest id, as the C++ maintains). -/
theorem c2_save_load_roundtrip (store pre : Store) (h : WFStore store) :
    NoteManager.Load [NoteManager.saveCallback store] pre = store := by
  obtain ⟨hlen, hnd, hall⟩ := h
  rw [NoteManager.Load, NoteManager.loadLoop]
  simp only [NoteManager.saveCallback]
  rw [if_pos trivial, if_neg (by decide), if_neg (by simp)]
  show (match readBytes 4 (NoteManager.Save store) with
    | none => ([] : Store)
    | some (cb, s) => NoteManager.loadLoop [] (NoteManager.loadNotes (fromBytesLE cb) s [])) = store
  rw [NoteManager.Save, Nat.mod_eq_of_lt hlen,
    readBytes_of_length 4 _ _ (toBytesLE_length 4 store.length)]
  simp only [NoteManager.loadLoop]
  rw [fromBytesLE_toBytesLE_of_lt 4 _ (by omega)]
  have hcount : store.length = store.length := rfl
  rw [loadNotes_saved store [] (fun p hp => ⟨(hall p hp).1 ▸ (hall p hp).2.1,
    (hall p hp).2.2.1, (hall p hp).2.2.2⟩)]
  rw [foldl_insert_fresh store [] (fun p hp => (hall p hp).1) hnd
    (fun p hp => rfl)]
  simp

/-- Closed witness for claim C2 at a concrete one-note store. -/
theorem c2_witness :
    NoteManager.Load [NoteManager.saveCallback exStore] [] = exStore :=
  c2_save_load_roundtrip exStore [] (by
    refine ⟨by decide, by decide, ?_⟩
    intro p hp
    simp only [exStore, List.mem_singleton] at hp
    subst hp
    refine ⟨rfl, by decide, by decide, by decide⟩)

/-- Claim C1 counterexample: with a one-note store in memory, loading a
current-version record whose count read fails (empty record data) does not
leave the store untouched - `NoteManager::Load` clears the map at entry, so
the store ends up empty instead of keeping its prior note. -/
theorem c1_counterexample :
    NoteManager.Load [⟨NoteManager.kDataKey, 2, []⟩] exStore ≠ exStore := by
  decide

/-- Claim C1 amended (proved): when a serialization read fails partway
through the load callback, the prior in-memory state is not preserved:
`Load` clears the note map at entry, so a failed read of the record count on
the first current-version record leaves the store empty regardless of its
prior contents; the callback still returns normally (the embedding is a
total function), so the host is not aborted. -/
theorem c1_failed_read_clears_store (r : SaveRecord) (rs : List SaveRecord) (pre : Store)
    (ht : r.type = NoteManager.kDataKey)
    (hv : r.version = NoteManager.kSerializationVersion)
    (hd : r.data.length < 4) :
    NoteManager.Load (r :: rs) pre = [] := by
  have h1 : r.version ≠ 1 := by rw [hv]; decide
  have hv2 : ¬ r.version ≠ NoteManager.kSerializationVersion := by simp [hv]
  have hread : readBytes 4 r.data = none := by
    simp only [readBytes, if_neg (by omega : ¬ 4 ≤ r.data.length)]
  rw [NoteManager.Load, NoteManager.loadLoop, if_pos ht, if_neg h1, if_neg hv2, hread]

/-- Closed witness for the amended claim C1 at a concrete record and prior
store. -/
theorem c1_witness :
    NoteManager.Load [⟨NoteManager.kDataKey, 2, [9]⟩] exStore = [] :=
  c1_failed_read_clears_store ⟨NoteManager.kDataKey, 2, [9]⟩ [] exStore
    (by decide) (by decide) (by decide)

/-- Claim C4 counterexample: the record the save callback writes is keyed by
the tag 'PNOT' (0x504E4F54), not 'BNEF' (0x424E4546). -/
theorem c4_counterexample :
    (NoteManager.saveCallback []).type ≠ 0x424E4546 := by
  decide

/-- Claim C4 amended (proved): every record this plugin writes to the
co-save channel is keyed by the 4-byte tag 'PNOT' (0x504E4F54) at version 2,
and its payload is a 4-byte note count (the store size as uint32) followed
by each note's serialized bytes; no version-1 payload is ever written. -/
theorem c4_record_format (store : Store) (h : store.length < 2 ^ 32) :
    (NoteManager.saveCallback store).type = 0x504E4F54 ∧
    (NoteManager.saveCallback store).version = 2 ∧
    readBytes 4 (NoteManager.saveCallback store).data =
      some (toBytesLE 4 store.length, (store.map (fun p => p.2.Save)).flatten) ∧
    fromBytesLE (toBytesLE 4 store.length) = store.length := by
  refine ⟨rfl, rfl, ?_, ?_⟩
  · show readBytes 4 (NoteManager.Save store) = _
    rw [NoteManager.Save, Nat.mod_eq_of_lt h]
    exact readBytes_of_length 4 _ _ (toBytesLE_length 4 _)
  · rw [fromBytesLE_toBytesLE, Nat.mod_eq_of_lt]
    exact lt_of_lt_of_le h (by norm_num)

/-- Closed witness for the amended claim C4 at a concrete store. -/
theorem c4_witness :
    (NoteManager.saveCallback exStore).type = 0x504E4F54 ∧
    (NoteManager.saveCallback exStore).version = 2 ∧
    readBytes 4 (NoteManager.saveCallback exStore).data =
      some (toBytesLE 4 exStore.length, (exStore.map (fun p => p.2.Save)).flatten) ∧
    fromBytesLE (toBytesLE 4 exStore.length) = exStore.length :=
  c4_record_format exStore (by decide)

/-- Claim C6 (confirmed against the spec model): from any engine state with
`isActive = false`, a spell-cast for a configured spell whose effect list
intersects the configured apply set flips `isActive` to true, sets
`lastEvent` to `EffectApplied`, sets `pendingToggleOn` to true, and arms a
render push with value true. -/
theorem c6_spellcast_toggles_on (cfg : NightEye.Config) (s : NightEye.EngineState)
    (spell : Nat) (spellEffects : List Nat)
    (hA : s.isActive = false)
    (hm : NightEye.castMatches cfg spell spellEffects = true) :
    (NightEye.step cfg s (.spellCast spell spellEffects)).isActive = true ∧
    (NightEye.step cfg s (.spellCast spell spellEffects)).lastEvent = .effectApplied ∧
    (NightEye.step cfg s (.spellCast spell spellEffects)).pendingToggleOn = true ∧
    (NightEye.step cfg s (.spellCast spell spellEffects)).hasPendingRenderUpdate = true ∧
    (NightEye.step cfg s (.spellCast spell spellEffects)).pendingRenderValue = true := by
  simp [NightEye.step, hm, hA]

/-- Closed witness for claim C6 at a concrete configuration and the initial
state. -/
theorem c6_witness :
    (NightEye.step ⟨[1], [2], []⟩ NightEye.initState (.spellCast 1 [2])).isActive = true ∧
    (NightEye.step ⟨[1], [2], []⟩ NightEye.initState
      (.spellCast 1 [2])).lastEvent = .effectApplied ∧
    (NightEye.step ⟨[1], [2], []⟩ NightEye.initState (.spellCast 1 [2])).pendingToggleOn = true ∧
    (NightEye.step ⟨[1], [2], []⟩ NightEye.initState
      (.spellCast 1 [2])).hasPendingRenderUpdate = true ∧
    (NightEye.step ⟨[1], [2], []⟩ NightEye.initState
      (.spellCast 1 [2])).pendingRenderValue = true :=
  c6_spellcast_toggles_on ⟨[1], [2], []⟩ NightEye.initState 1 [2] (by decide) (by decide)

/-- One engine transition preserves the mutual exclusion of the two pending
windows. -/
theorem mutex_preserved (cfg : NightEye.Config) (s : NightEye.EngineState)
    (i : NightEye.EngineInput)
    (h : s.pendingToggleOn = false ∨ s.pendingRemoval = false) :
    (NightEye.step cfg s i).pendingToggleOn = false ∨
    (NightEye.step cfg s i).pendingRemoval = false := by
  cases i with
  | equip => exact h
  | unequip => exact h
  | effectApply effect => exact h
  | spellCast spell spellEffects =>
    simp only [NightEye.step]
    split
    · exact Or.inr rfl
    · exact h
  | effectRemove effect =>
    simp only [NightEye.step]
    split
    · split
      · exact Or.inl rfl
      · rename_i hT
        exact Or.inl (by simpa using hT)
    · exact h
  | poll applyEffectPresent =>
    simp only [NightEye.step]
    split
    · exact Or.inr rfl
    · exact h
  | postLoadCheck liveActive =>
    simp only [NightEye.step]
    split
    · exact h
    · exact h

/-- Claim C7 (confirmed against the spec model): in every state reachable
from the initial state by any sequence of the defined transitions, at most
one of `pendingToggleOn` and `pendingRemoval` is true. -/
theorem c7_pending_windows_mutually_exclusive (cfg : NightEye.Config)
    (inputs : List NightEye.EngineInput) :
    (NightEye.run cfg inputs).pendingToggleOn = false ∨
    (NightEye.run cfg inputs).pendingRemoval = false := by
  have general : ∀ (l : List NightEye.EngineInput) (s : NightEye.EngineState),
      s.pendingToggleOn = false ∨ s.pendingRemoval = false →
      (l.foldl (NightEye.step cfg) s).pendingToggleOn = false ∨
      (l.foldl (NightEye.step cfg) s).pendingRemoval = false := by
    intro l
    induction l with
    | nil => intro s hs; exact hs
    | cons i rest ih =>
      intro s hs
      exact ih (NightEye.step cfg s i) (mutex_preserved cfg s i hs)
  exact general inputs NightEye.initState (Or.inl rfl)

end PersonalNotes
